import Mathlib

/-!
Shallow embedding of the `deegzlibs-event-bus` repository core:
the tagged-literal (repr) codec, the JSON codec, the handler registry,
and the event-bus dispatch/execute/work coordinator.

Python strings are Lean `String`s (manipulated through their `List Char`
data, mirroring the source's index-based operations); Python `None` and
exceptions are modelled with `Option` and `Except`; the wall clock used
by `execute`'s poll loop is an explicit sequence of rational readings.
-/

namespace EventBusModel

/-- Universe of Python field values expressible in the tagged-literal value
grammar of `ReprMessageParser` (src/src/event_bus/parsers/repr_parser.py):
`None`, booleans, numbers (modelled as integers; floating point is outside
this embedding), quoted strings, lists, mappings, and nested constructor
calls of pydantic models. A constructed object carries its class, identified
by the (module path, class name) pair, plus its keyword fields. -/
inductive PyValue where
  | vNone : PyValue
  | vBool (b : Bool) : PyValue
  | vInt (n : Int) : PyValue
  | vStr (s : String) : PyValue
  | vList (xs : List PyValue) : PyValue
  | vDict (kvs : List (PyValue × PyValue)) : PyValue
  | vObj (cls : String × String) (fields : List (String × PyValue)) : PyValue
  deriving Repr

/-- Python `ast` nodes reachable when parsing a tagged-literal argument list:
`ast.Name` (bare identifier), constants (`None`/bool/int/string; a negative
integer literal's `UnaryOp(USub, Constant)` is folded into `aInt`),
`ast.List`, `ast.Dict`, and `ast.Call` whose function is a bare `ast.Name`
(a dotted function is an `ast.Attribute`, which the source never reaches
for repr-encoded messages). -/
inductive Ast where
  | aName (id : String) : Ast
  | aNone : Ast
  | aBool (b : Bool) : Ast
  | aInt (n : Int) : Ast
  | aStr (s : String) : Ast
  | aList (elts : List Ast) : Ast
  | aDict (kvs : List (Ast × Ast)) : Ast
  | aCall (funcName : String) (args : List Ast) (keywords : List (String × Ast)) : Ast
  deriving Repr

/-- JSON values as produced by `json.loads` (numbers as integers). -/
inductive Json where
  | null : Json
  | bool (b : Bool) : Json
  | num (n : Int) : Json
  | str (s : String) : Json
  | arr (xs : List Json) : Json
  | obj (kvs : List (String × Json)) : Json
  deriving Repr

/-- The importable Python environment seen by `ModuleImporter`
(src/src/event_bus/utils.py): which module paths import successfully,
which (module path, class name) pairs resolve via `getattr`, and which of
those classes are `EventMessage` subclasses. -/
structure PyEnv where
  modules : List String
  classes : List (String × String)
  eventClasses : List (String × String)
  deriving DecidableEq, Repr

/-- Decode-time errors of the codecs, one constructor per `raise` site. -/
inductive DecErr where
  | unsupportedName (id : String) : DecErr
  | unsupportedArg : DecErr
  | importErr (modulePath : String) : DecErr
  | attributeErr (modulePath className : String) : DecErr
  | typeErr : DecErr
  deriving DecidableEq, Repr

/- ## Character-list helpers mirroring the Python string operations -/

/-- Remove the first occurrence of `c` (identity if absent). -/
def removeFirst (c : Char) : List Char → List Char
  | [] => []
  | x :: xs => if x = c then xs else x :: removeFirst c xs

/-- Split at the first occurrence of `c`: Python `s.split(c, 1)` when it
yields two pieces; `none` when `c` is absent (where the source's tuple
unpacking would raise `ValueError`). -/
def splitFirst (c : Char) : List Char → Option (List Char × List Char)
  | [] => none
  | x :: xs =>
    if x = c then some ([], xs)
    else (splitFirst c xs).map (fun p => (x :: p.1, p.2))

/-- Python `s.split(c)` for a single-character separator. -/
def splitOnChar (c : Char) : List Char → List (List Char)
  | [] => [[]]
  | x :: xs =>
    if x = c then [] :: splitOnChar c xs
    else
      match splitOnChar c xs with
      | [] => [[x]]
      | h :: t => (x :: h) :: t

/-- Python `c.join(parts)` for a single-character separator. -/
def joinChar (c : Char) : List (List Char) → List Char
  | [] => []
  | [p] => p
  | p :: ps => p ++ c :: joinChar c ps

/-- `strip_last_parens` from `ReprMessageParser.get_message_components`:
`pos = s.rfind(")")`; if found, delete that character. -/
def stripLastParens (s : String) : String :=
  String.mk (removeFirst ')' s.data.reverse).reverse

/-- `ReprMessageParser.get_message_components`: strip the last close paren,
split on the first open paren into dotted name and argument string (the
source's 2-tuple unpacking raises when there is no open paren, hence
`Option`), then split the dotted name on `.`: the last segment is the class
name, the rest rejoined is the module path. -/
def get_message_components (s : String) : Option (String × String × String) :=
  match splitFirst '(' (stripLastParens s).data with
  | none => none
  | some (moduleName, paramString) =>
    let moduleParts := splitOnChar '.' moduleName
    let className := moduleParts.getLastD []
    let modulePath := joinChar '.' moduleParts.dropLast
    some (String.mk modulePath, String.mk className, String.mk paramString)

/- ## Tagged-literal (repr) codec: `ReprMessageParser` -/

mutual

/-- Python `ast.literal_eval` on the nodes of our `Ast` universe: constants
evaluate to themselves, lists and dicts evaluate element-wise, while a bare
`ast.Name` or an `ast.Call` raises `ValueError` (`none`). -/
def literalEval : Ast → Option PyValue
  | .aName _ => none
  | .aNone => some .vNone
  | .aBool b => some (.vBool b)
  | .aInt n => some (.vInt n)
  | .aStr s => some (.vStr s)
  | .aList elts => (literalEvalList elts).map .vList
  | .aDict kvs => (literalEvalPairs kvs).map .vDict
  | .aCall _ _ _ => none

def literalEvalList : List Ast → Option (List PyValue)
  | [] => some []
  | a :: rest =>
    match literalEval a, literalEvalList rest with
    | some v, some vs => some (v :: vs)
    | _, _ => none

def literalEvalPairs : List (Ast × Ast) → Option (List (PyValue × PyValue))
  | [] => some []
  | (k, v) :: rest =>
    match literalEval k, literalEval v, literalEvalPairs rest with
    | some kv, some vv, some tl => some ((kv, vv) :: tl)
    | _, _, _ => none

end

/-- The class-resolution step of `ReprMessageParser._eval_arg`'s `ast.Call`
branch: `module_name, _, class_str = arg.func.id.partition(".")`, then
`ModuleImporter(module_name).get_class(class_str)` with an `ImportError`
falling back to `self.module_importer.get_class(module_name)` (the outer
message's module). `getattr` failures (`AttributeError`) are not caught. -/
def resolveCallClass (env : PyEnv) (outerModule : String) (funcName : String) :
    Except DecErr (String × String) :=
  let part := splitFirst '.' funcName.data
  let moduleName := match part with
    | none => funcName
    | some p => String.mk p.1
  let classStr := match part with
    | none => ""
    | some p => String.mk p.2
  if moduleName ∈ env.modules then
    if (moduleName, classStr) ∈ env.classes then .ok (moduleName, classStr)
    else .error (.attributeErr moduleName classStr)
  else
    if (outerModule, moduleName) ∈ env.classes then .ok (outerModule, moduleName)
    else .error (.attributeErr outerModule moduleName)

mutual

/-- `ReprMessageParser._eval_arg`: a bare `ast.Name` maps `None`/`True`/
`False` to their values and `nan` to `None`, and rejects any other
identifier; every other node first goes through `ast.literal_eval`, and on
its failure an `ast.Call` resolves its class and constructs it with the
evaluated arguments (pydantic model construction is keyword-only, so a
positional argument raises: `typeErr`), while lists and dicts recurse
element-wise; anything else is an unsupported argument. -/
def evalArg (env : PyEnv) (outerModule : String) : Ast → Except DecErr PyValue
  | .aName id =>
    if id = "None" then .ok .vNone
    else if id = "True" then .ok (.vBool true)
    else if id = "False" then .ok (.vBool false)
    else if id = "nan" then .ok .vNone
    else .error (.unsupportedName id)
  | .aNone => .ok .vNone
  | .aBool b => .ok (.vBool b)
  | .aInt n => .ok (.vInt n)
  | .aStr s => .ok (.vStr s)
  | .aList elts =>
    match literalEval (.aList elts) with
    | some v => .ok v
    | none =>
      match evalArgList env outerModule elts with
      | .error e => .error e
      | .ok vs => .ok (.vList vs)
  | .aDict kvs =>
    match literalEval (.aDict kvs) with
    | some v => .ok v
    | none =>
      match evalArgPairs env outerModule kvs with
      | .error e => .error e
      | .ok pairs => .ok (.vDict pairs)
  | .aCall f args kws =>
    match resolveCallClass env outerModule f with
    | .error e => .error e
    | .ok cls =>
      match evalArgList env outerModule args with
      | .error e => .error e
      | .ok cargs =>
        match evalKwList env outerModule kws with
        | .error e => .error e
        | .ok ckws =>
          if cargs.isEmpty then .ok (.vObj cls ckws) else .error .typeErr

def evalArgList (env : PyEnv) (outerModule : String) : List Ast → Except DecErr (List PyValue)
  | [] => .ok []
  | a :: rest =>
    match evalArg env outerModule a with
    | .error e => .error e
    | .ok v =>
      match evalArgList env outerModule rest with
      | .error e => .error e
      | .ok vs => .ok (v :: vs)

def evalArgPairs (env : PyEnv) (outerModule : String) :
    List (Ast × Ast) → Except DecErr (List (PyValue × PyValue))
  | [] => .ok []
  | (k, v) :: rest =>
    match evalArg env outerModule k with
    | .error e => .error e
    | .ok kv =>
      match evalArg env outerModule v with
      | .error e => .error e
      | .ok vv =>
        match evalArgPairs env outerModule rest with
        | .error e => .error e
        | .ok tl => .ok ((kv, vv) :: tl)

def evalKwList (env : PyEnv) (outerModule : String) :
    List (String × Ast) → Except DecErr (List (String × PyValue))
  | [] => .ok []
  | (k, a) :: rest =>
    match evalArg env outerModule a with
    | .error e => .error e
    | .ok v =>
      match evalKwList env outerModule rest with
      | .error e => .error e
      | .ok tl => .ok ((k, v) :: tl)

end

mutual

/-- Modelled from the spec: the `ast` node Python's parser yields for the
`repr` rendering of a field value (the argument-list grammar of §4.2/§6:
quoted strings, numbers, `None`/`True`/`False`, lists, mappings, and nested
constructor calls rendered as a bare class-name call with keyword fields).
`repr`/`ast.parse` are standard-library code, absent from the repository,
so this stage is modelled rather than translated. -/
def astOfValue : PyValue → Ast
  | .vNone => .aNone
  | .vBool b => .aBool b
  | .vInt n => .aInt n
  | .vStr s => .aStr s
  | .vList xs => .aList (astOfValueList xs)
  | .vDict kvs => .aDict (astOfValuePairs kvs)
  | .vObj cls fields => .aCall cls.2 [] (astOfValueFields fields)

def astOfValueList : List PyValue → List Ast
  | [] => []
  | v :: vs => astOfValue v :: astOfValueList vs

def astOfValuePairs : List (PyValue × PyValue) → List (Ast × Ast)
  | [] => []
  | (k, v) :: rest => (astOfValue k, astOfValue v) :: astOfValuePairs rest

def astOfValueFields : List (String × PyValue) → List (String × Ast)
  | [] => []
  | (k, v) :: rest => (k, astOfValue v) :: astOfValueFields rest

end

mutual

/-- The field values on which the tagged-literal decode grammar can
reproduce the encoded value: literals are always fine, containers recurse,
and a nested constructor call must be a class of the outer message's module
whose bare name is dot-free and does not shadow an importable module (so
the source's `ImportError` fallback resolves it against the outer module). -/
def inGrammar (env : PyEnv) (outerModule : String) : PyValue → Bool
  | .vNone => true
  | .vBool _ => true
  | .vInt _ => true
  | .vStr _ => true
  | .vList xs => inGrammarList env outerModule xs
  | .vDict kvs => inGrammarPairs env outerModule kvs
  | .vObj cls fields =>
    decide (cls.1 = outerModule) && decide ('.' ∉ cls.2.data) &&
      decide (cls.2 ∉ env.modules) && decide ((outerModule, cls.2) ∈ env.classes) &&
      inGrammarFields env outerModule fields

def inGrammarList (env : PyEnv) (outerModule : String) : List PyValue → Bool
  | [] => true
  | v :: vs => inGrammar env outerModule v && inGrammarList env outerModule vs

def inGrammarPairs (env : PyEnv) (outerModule : String) : List (PyValue × PyValue) → Bool
  | [] => true
  | (k, v) :: rest =>
    inGrammar env outerModule k && inGrammar env outerModule v &&
      inGrammarPairs env outerModule rest

def inGrammarFields (env : PyEnv) (outerModule : String) : List (String × PyValue) → Bool
  | [] => true
  | (_, v) :: rest => inGrammar env outerModule v && inGrammarFields env outerModule rest

end

/- ## Encoding side: `TransmissibleBaseModel.__str__` -/

/-- A repr-encodable message: its defining module path, class name, and
keyword fields (pydantic models carry `correlation_id` as an ordinary
field). It denotes the object `PyValue.vObj (module, cls) fields`. -/
structure ReprMessage where
  module : String
  cls : String
  fields : List (String × PyValue)
  deriving Repr

/-- The object a `ReprMessage` stands for. -/
def ReprMessage.toValue (m : ReprMessage) : PyValue := .vObj (m.module, m.cls) m.fields

mutual

/-- Modelled from the spec: Python `repr` of a field value (§6 wire format:
Python-literal-like tokens). Strings render single-quoted with backslash
escapes for backslash and quote; nested models render as
`ClassName(field=value, ...)` exactly as pydantic's `__repr__` does. -/
def renderValue : PyValue → String
  | .vNone => "None"
  | .vBool b => if b then "True" else "False"
  | .vInt n => toString n
  | .vStr s => "\x27" ++ String.mk (escapeChars s.data) ++ "\x27"
  | .vList xs => "[" ++ renderValueList xs ++ "]"
  | .vDict kvs => "\x7b" ++ renderValuePairs kvs ++ "\x7d"
  | .vObj cls fields => cls.2 ++ "(" ++ renderValueFields fields ++ ")"

def escapeChars : List Char → List Char
  | [] => []
  | c :: cs =>
    if c = '\\' ∨ c = '\x27' then '\\' :: c :: escapeChars cs
    else c :: escapeChars cs

def renderValueList : List PyValue → String
  | [] => ""
  | [v] => renderValue v
  | v :: vs => renderValue v ++ ", " ++ renderValueList vs

def renderValuePairs : List (PyValue × PyValue) → String
  | [] => ""
  | [(k, v)] => renderValue k ++ ": " ++ renderValue v
  | (k, v) :: rest => renderValue k ++ ": " ++ renderValue v ++ ", " ++ renderValuePairs rest

def renderValueFields : List (String × PyValue) → String
  | [] => ""
  | [(k, v)] => k ++ "=" ++ renderValue v
  | (k, v) :: rest => k ++ "=" ++ renderValue v ++ ", " ++ renderValueFields rest

end

/-- `TransmissibleBaseModel.__str__` (src/src/event_bus/interfaces.py):
`self.__module__ + "." + repr(self)`, where pydantic renders
`ClassName(field=value, ...)`. -/
def encode (m : ReprMessage) : String :=
  m.module ++ "." ++ m.cls ++ "(" ++ renderValueFields m.fields ++ ")"

/-- Modelled from the spec: the `(args, kwargs)` AST pair Python's parser
produces for the rendered keyword-field list of a message (`ast.parse` is
standard-library code, absent from the repository). A repr-encoded pydantic
message has no positional arguments and one keyword per field. -/
def parseRenderedArgs (fields : List (String × PyValue)) : List Ast × List (String × Ast) :=
  ([], astOfValueFields fields)

/-- `ReprMessageParser.__init__` + `initialize`, after component splitting
and argument parsing: the constructor eagerly imports the module path
(`ModuleImporter` raises `ImportError` if it is not importable);
`initialize` evaluates the parsed arguments via `_eval_arg`, resolves the
class by name via `get_class` (`AttributeError` if absent), and constructs
it with them (keyword-only pydantic construction: a positional argument
raises). -/
def initializeRepr (env : PyEnv) (modulePath className : String)
    (parsed : List Ast × List (String × Ast)) : Except DecErr PyValue :=
  if modulePath ∈ env.modules then
    match evalArgList env modulePath parsed.1 with
    | .error e => .error e
    | .ok args =>
      match evalKwList env modulePath parsed.2 with
      | .error e => .error e
      | .ok kws =>
        if (modulePath, className) ∈ env.classes then
          if args.isEmpty then .ok (.vObj (modulePath, className) kws)
          else .error .typeErr
        else .error (.attributeErr modulePath className)
  else .error (.importErr modulePath)

/- ## JSON codec: `JsonMessageParser` -/

/-- Decode errors of `JsonMessageParser.initialize`, one constructor per
`raise` site (each carries a distinct human-readable message in the
source), plus the uncaught `ModuleImporter`/`getattr` resolution errors. -/
inductive JsonErr where
  | missingType : JsonErr
  | typeNotString : JsonErr
  | notQualified : JsonErr
  | notEventMessage : JsonErr
  | importErr (modulePath : String) : JsonErr
  | attributeErr (modulePath className : String) : JsonErr
  deriving DecidableEq, Repr

/-- The message instance the JSON codec produces: the resolved class and
the remaining payload keys, passed as keyword field values
(`message_class(**payload)`). -/
structure JsonMsg where
  cls : String × String
  fields : List (String × Json)
  deriving Repr

/-- First value bound to `key` (the payload comes from `json.loads`, whose
object keys are unique). -/
def lookupKey : List (String × Json) → String → Option Json
  | [], _ => none
  | (k, v) :: rest, key => if k = key then some v else lookupKey rest key

/-- `payload.pop(key, ...)`: the payload without the binding for `key`. -/
def removeKey : List (String × Json) → String → List (String × Json)
  | [], _ => []
  | (k, v) :: rest, key => if k = key then rest else (k, v) :: removeKey rest key

/-- Python `s.rpartition(".")` restricted to the two components the source
uses: `(module_path, class_name)`; with no separator the pair is
`("", s)`. -/
def rpartitionDot (s : String) : String × String :=
  match splitFirst '.' s.data.reverse with
  | none => ("", s)
  | some p => (String.mk p.2.reverse, String.mk p.1.reverse)

/-- `JsonMessageParser.initialize` (src/src/event_bus/parsers/json_parser.py):
pop the type key with default `None` (JSON `null` decodes to Python `None`,
so a null value and an absent key coincide); reject a missing key, a
non-string value, and a value whose `rpartition(".")` leaves the module
path or class name empty; resolve the class; reject classes that are not
`EventMessage` subclasses; otherwise construct the class with the remaining
keys as keyword field values. -/
def initializeJson (env : PyEnv) (typeKey : String) (payload : List (String × Json)) :
    Except JsonErr JsonMsg :=
  let popped : Option Json :=
    match lookupKey payload typeKey with
    | some Json.null => none
    | other => other
  match popped with
  | none => .error .missingType
  | some (Json.str s) =>
    let parts := rpartitionDot s
    if parts.1 = "" ∨ parts.2 = "" then .error .notQualified
    else if parts.1 ∈ env.modules then
      if (parts.1, parts.2) ∈ env.classes then
        if (parts.1, parts.2) ∈ env.eventClasses then
          .ok ⟨(parts.1, parts.2), removeKey payload typeKey⟩
        else .error .notEventMessage
      else .error (.attributeErr parts.1 parts.2)
    else .error (.importErr parts.1)
  | some _ => .error .typeNotString

/- ## Registry: `EventBusRegistry` (src/src/event_bus/registry.py) -/

/-- `EventBusRegistryEntry`: classes are identified by their qualified name
(`get_qual_name`, module path + "." + class name), which is both the
structural-equality key of an entry (pydantic equality over the two class
fields) and the routing key of `is_message_match`. -/
structure RegEntry where
  message_class : String
  handler_class : String
  deriving DecidableEq, Repr

/-- `EventBusRegistry.get_handlers_for_message`: all entries whose message
class has the qualified name of the argument, in insertion order. -/
def get_handlers_for_message (handlers : List RegEntry) (qualName : String) : List RegEntry :=
  handlers.filter (fun e => e.message_class == qualName)

/-- `EventBusRegistry.register`: append the entry unless an equal one is
already present. -/
def register (handlers : List RegEntry) (messageClass handlerClass : String) : List RegEntry :=
  let entry : RegEntry := ⟨messageClass, handlerClass⟩
  if entry ∈ handlers then handlers else handlers ++ [entry]

/-- `EventBusRegistry.deregister`: pop the first structurally-equal entry
and return; leave the list unchanged when no entry matches (the loop just
falls through — nothing raises). -/
def deregister (handlers : List RegEntry) (messageClass handlerClass : String) : List RegEntry :=
  let entry : RegEntry := ⟨messageClass, handlerClass⟩
  go entry handlers
where
  go (entry : RegEntry) : List RegEntry → List RegEntry
    | [] => []
    | e :: es => if e = entry then es else e :: go entry es

/- ## Event bus: `EventBus` (src/src/event_bus/bus.py) -/

/-- Exceptions raised by the bus paths, one constructor per `raise` site:
`ValueError(f"No handler found for {message}")`, `ValueError("execute(...,
wait=True) requires a response_store on the bus")`, `TimeoutError(...)`
naming the correlation id, plus decode errors from the configured parser
and exceptions propagating out of handler bodies. -/
inductive BusErr where
  | noHandler (qualName : String) : BusErr
  | waitRequiresStore : BusErr
  | timeoutErr (correlationId : String) : BusErr
  | parseError (msg : String) : BusErr
  | handlerError (msg : String) : BusErr
  deriving DecidableEq, Repr

/-- A decoded event as the bus sees it: its routing key (qualified type
name) and its optional correlation id. -/
structure Event where
  qualName : String
  correlationId : Option String
  deriving DecidableEq, Repr

/-- The bus's collaborators: the registry entries, whether a response store
is configured, the configured response TTL, the pluggable parser
(`message_parser_class(raw).initialize()`), and the semantics of each
handler class (`entry.handler_instance()(event)` — a fresh stateless
instance per dispatch, so behaviour depends only on the class); a handler
returns a value or Python `None`, or raises. -/
structure BusConfig where
  registry : List RegEntry
  hasResponseStore : Bool
  responseTtl : Int
  parse : String → Except BusErr Event
  handlerRun : String → Event → Except BusErr (Option PyValue)

/-- The observable outcome of one `dispatch`: the handler classes invoked
in order, the `response_store.set(key, value, ttl_seconds=...)` calls
performed, and whether an exception propagated. -/
structure DispatchOut where
  invoked : List String
  storeSets : List (String × PyValue × Int)
  result : Except BusErr Unit
  deriving Repr

/-- The handler fan-out loop of `EventBus.dispatch`: invoke each entry's
handler in order, awaiting each before the next; a non-`None` result
replaces `last_result`; a raising handler propagates immediately (later
entries are not invoked). Returns the invocation order and the final
`last_result`. -/
def runHandlers (cfg : BusConfig) (ev : Event) :
    List RegEntry → Option PyValue → List String × Except BusErr (Option PyValue)
  | [], lastResult => ([], .ok lastResult)
  | e :: rest, lastResult =>
    match cfg.handlerRun e.handler_class ev with
    | .error err => ([e.handler_class], .error err)
    | .ok r =>
      let lastResult' := if r.isSome then r else lastResult
      let tl := runHandlers cfg ev rest lastResult'
      (e.handler_class :: tl.1, tl.2)

/-- `EventBus.dispatch`: parse the raw message with the configured parser,
look up the matching registry entries, run the handlers sequentially
tracking the last non-`None` result, then — when the decoded message
carries a truthy correlation id, a response store is configured, and the
last result is non-`None` — store that result under the correlation id
with the bus's TTL. -/
def dispatch (cfg : BusConfig) (raw : String) : DispatchOut :=
  match cfg.parse raw with
  | .error e => ⟨[], [], .error e⟩
  | .ok ev =>
    let entries := get_handlers_for_message cfg.registry ev.qualName
    let run := runHandlers cfg ev entries none
    match run.2 with
    | .error e => ⟨run.1, [], .error e⟩
    | .ok lastResult =>
      let cidTruthy : Bool := match ev.correlationId with
        | some c => c != ""
        | none => false
      if cidTruthy && cfg.hasResponseStore then
        match lastResult with
        | some v =>
          ⟨run.1, [(ev.correlationId.getD "", v, cfg.responseTtl)], .ok ()⟩
        | none => ⟨run.1, [], .ok ()⟩
      else ⟨run.1, [], .ok ()⟩

/-- The observable outcome of one `execute`: the `(message, delay)` pairs
handed to the transport's `enqueue`, how many times the response store's
`get` ran, and the return value or exception. -/
structure ExecOut where
  enqueued : List (Event × Int)
  storeGets : Nat
  result : Except BusErr (Option PyValue)
  deriving Repr

/-- `wait` resolution at the top of `EventBus.execute`: an unspecified
`wait` defaults to whether a response store is configured. -/
def resolveWait (wait : Option Bool) (hasResponseStore : Bool) : Bool :=
  wait.getD hasResponseStore

/-- The poll loop of `EventBus.execute`: while the monotonic clock reading
is below the deadline, `get` the correlation id from the response store
(the k-th `get` sees `storeSeq k`), returning a non-`None` value,
otherwise sleeping and polling again; once the clock reaches the deadline,
raise `TimeoutError`. `fuel` bounds the number of iterations modelled;
`none` means the loop was still running after `fuel` iterations. -/
def pollLoop (storeSeq : Nat → Option PyValue) (clock : Nat → ℚ) (deadline : ℚ)
    (correlationId : String) :
    Nat → Nat → Nat → Option (Nat × Except BusErr (Option PyValue))
  | 0, _, _ => none
  | fuel + 1, k, gets =>
    if clock k < deadline then
      match storeSeq gets with
      | some v => some (gets + 1, .ok (some v))
      | none => pollLoop storeSeq clock deadline correlationId fuel (k + 1) (gets + 1)
    else some (gets, .error (.timeoutErr correlationId))

/-- `EventBus.execute`: default the delay to 0 and resolve `wait`. Without
waiting, `_enqueue` checks that at least one handler matches (raising the
no-handler `ValueError` before touching the transport) and enqueues. With
waiting, a missing response store raises first; otherwise a fresh
correlation id (`uuidStr`) is stamped onto a copy of the message, the copy
is enqueued through the same `_enqueue` guard, the deadline is the clock
reading plus `timeoutSeconds`, and the poll loop runs. `clock k` is the
(k+1)-th `time.monotonic()` reading (`clock 0` computes the deadline);
`storeSeq` gives the store's answer to each successive `get`. -/
def execute (cfg : BusConfig) (ev : Event) (delaySeconds : Option Int) (wait : Option Bool)
    (timeoutSeconds : ℚ) (uuidStr : String) (clock : Nat → ℚ)
    (storeSeq : Nat → Option PyValue) (fuel : Nat) : Option ExecOut :=
  let delay := delaySeconds.getD 0
  if resolveWait wait cfg.hasResponseStore then
    if cfg.hasResponseStore then
      let ev' : Event := { ev with correlationId := some uuidStr }
      if (get_handlers_for_message cfg.registry ev'.qualName).isEmpty then
        some ⟨[], 0, .error (.noHandler ev'.qualName)⟩
      else
        let deadline := clock 0 + timeoutSeconds
        match pollLoop storeSeq clock deadline uuidStr fuel 1 0 with
        | none => none
        | some r => some ⟨[(ev', delay)], r.1, r.2⟩
    else some ⟨[], 0, .error .waitRequiresStore⟩
  else
    if (get_handlers_for_message cfg.registry ev.qualName).isEmpty then
      some ⟨[], 0, .error (.noHandler ev.qualName)⟩
    else some ⟨[(ev, delay)], 0, .ok none⟩

/-- The observable outcome of one `work` call: the message bodies for
which `dispatch` was invoked, the messages acknowledged (`dequeue`d), and
the exception that propagated out of `work`, if any. -/
structure WorkOut where
  dispatched : List String
  acked : List String
  raised : Option BusErr
  deriving DecidableEq, Repr

/-- `EventBus.work`: for each message of the received batch, dispatch its
body and then acknowledge it; there is no exception handling, so a raising
dispatch propagates out of `work` immediately — that message is not
acknowledged and the rest of the batch is not processed. -/
def work (cfg : BusConfig) : List String → WorkOut
  | [] => ⟨[], [], none⟩
  | body :: rest =>
    match (dispatch cfg body).result with
    | .error e => ⟨[body], [], some e⟩
    | .ok _ =>
      let tl := work cfg rest
      ⟨body :: tl.dispatched, body :: tl.acked, tl.raised⟩

/-- A concrete bus for exercising `work`: one registered handler for
`pkg.mod.Order`, a parser that fails on the body "bad" and succeeds on
everything else, and a handler that returns 1. -/
def cfgBatch : BusConfig :=
  ⟨[⟨"pkg.mod.Order", "pkg.mod.Handler"⟩], false, 60,
    fun s => if s = "bad" then .error (.parseError "malformed literal")
             else .ok ⟨"pkg.mod.Order", none⟩,
    fun _ _ => .ok (some (.vInt 1))⟩

/-- A bus with no registered handlers and no response store. -/
def cfgNoStoreNoHandlers : BusConfig :=
  ⟨[], false, 60, fun _ => .ok ⟨"pkg.mod.Order", none⟩, fun _ _ => .ok none⟩

/-- A bus with one registered handler and no response store. -/
def cfgNoStoreOneHandler : BusConfig :=
  ⟨[⟨"pkg.mod.Order", "pkg.mod.Handler"⟩], false, 60,
    fun _ => .ok ⟨"pkg.mod.Order", none⟩, fun _ _ => .ok none⟩

/-- A bus with one registered handler and a response store. -/
def cfgStoreOneHandler : BusConfig :=
  ⟨[⟨"pkg.mod.Order", "pkg.mod.Handler"⟩], true, 60,
    fun _ => .ok ⟨"pkg.mod.Order", none⟩, fun _ _ => .ok none⟩

/- ## Lemmas: component splitting of an encoded message -/

theorem removeFirst_cons_self (c : Char) (l : List Char) :
    removeFirst c (c :: l) = l := by
  simp [removeFirst]

theorem splitFirst_append_of_not_mem (c : Char) (p rest : List Char) (hp : c ∉ p) :
    splitFirst c (p ++ c :: rest) = some (p, rest) := by
  induction p with
  | nil => simp [splitFirst]
  | cons x xs ih =>
    simp only [List.mem_cons, not_or] at hp
    simp [splitFirst, Ne.symm hp.1, ih hp.2]

theorem splitOnChar_ne_nil (c : Char) (l : List Char) : splitOnChar c l ≠ [] := by
  cases l with
  | nil => simp [splitOnChar]
  | cons x xs =>
    simp only [splitOnChar]
    split
    · simp
    · split
      · simp
      · simp

theorem splitOnChar_append_sep (c : Char) (xs ys : List Char) :
    splitOnChar c (xs ++ c :: ys) = splitOnChar c xs ++ splitOnChar c ys := by
  induction xs with
  | nil => simp [splitOnChar]
  | cons x l ih =>
    have h1 := splitOnChar_ne_nil c l
    cases h : splitOnChar c l with
    | nil => exact absurd h h1
    | cons a t =>
      by_cases hx : x = c
      · simp [splitOnChar, hx, ih, h]
      · simp [splitOnChar, hx, ih, h]

theorem splitOnChar_of_not_mem (c : Char) (l : List Char) (h : c ∉ l) :
    splitOnChar c l = [l] := by
  induction l with
  | nil => simp [splitOnChar]
  | cons x xs ih =>
    simp only [List.mem_cons, not_or] at h
    simp [splitOnChar, Ne.symm h.1, ih h.2]

theorem joinChar_splitOnChar (c : Char) (l : List Char) :
    joinChar c (splitOnChar c l) = l := by
  induction l with
  | nil => simp [splitOnChar, joinChar]
  | cons x xs ih =>
    have h1 := splitOnChar_ne_nil c xs
    cases h : splitOnChar c xs with
    | nil => exact absurd h h1
    | cons a t =>
      rw [h] at ih
      by_cases hx : x = c
      · simp only [splitOnChar, hx, if_pos rfl, h, joinChar]
        simpa using ih
      · simp only [splitOnChar, hx, if_false, h]
        cases t with
        | nil => simpa [joinChar] using ih
        | cons b t2 => simpa [joinChar] using ih

/-- `strip_last_parens` deletes exactly the final close paren of a string
that ends in one. -/
theorem stripLastParens_append_paren (l : List Char) :
    stripLastParens (String.mk (l ++ [')'])) = String.mk l := by
  simp [stripLastParens, removeFirst_cons_self]

/-- Component splitting inverts `__str__`'s assembly: for any argument
string at all, and a module path and class name free of open parens with a
dot-free class name, `get_message_components` recovers the three pieces. -/
theorem get_message_components_correct (modName clsName argsStr : String)
    (hmod : '(' ∉ modName.data) (hcls1 : '(' ∉ clsName.data) (hcls2 : '.' ∉ clsName.data) :
    get_message_components (modName ++ "." ++ clsName ++ "(" ++ argsStr ++ ")") =
      some (modName, clsName, argsStr) := by
  have hdata : (modName ++ "." ++ clsName ++ "(" ++ argsStr ++ ")").data =
      (modName.data ++ '.' :: clsName.data ++ '(' :: argsStr.data) ++ [')'] := by
    simp [String.data_append]
  have hstrip : stripLastParens (modName ++ "." ++ clsName ++ "(" ++ argsStr ++ ")") =
      String.mk (modName.data ++ '.' :: clsName.data ++ '(' :: argsStr.data) := by
    have : (modName ++ "." ++ clsName ++ "(" ++ argsStr ++ ")") =
        String.mk ((modName.data ++ '.' :: clsName.data ++ '(' :: argsStr.data) ++ [')']) := by
      apply String.ext
      simp only [hdata]
    rw [this, stripLastParens_append_paren]
  have hnotmem : '(' ∉ modName.data ++ '.' :: clsName.data := by
    simp only [List.mem_append, List.mem_cons, not_or]
    refine ⟨hmod, by decide, hcls1⟩
  have hsplit : splitFirst '(' ((modName.data ++ '.' :: clsName.data) ++ '(' :: argsStr.data) =
      some (modName.data ++ '.' :: clsName.data, argsStr.data) :=
    splitFirst_append_of_not_mem '(' _ _ hnotmem
  have hparts : splitOnChar '.' (modName.data ++ '.' :: clsName.data) =
      splitOnChar '.' modName.data ++ [clsName.data] := by
    rw [splitOnChar_append_sep, splitOnChar_of_not_mem '.' clsName.data hcls2]
  simp only [List.append_assoc, List.cons_append] at hsplit
  simp only [get_message_components, hstrip]
  simp only [List.append_assoc, List.cons_append]
  rw [hsplit]
  simp only [hparts]
  rw [List.getLastD_concat, List.dropLast_concat, joinChar_splitOnChar]

/- ## Lemmas: the argument evaluator inverts the rendered AST -/

theorem splitFirst_of_not_mem (c : Char) (l : List Char) (h : c ∉ l) :
    splitFirst c l = none := by
  induction l with
  | nil => rfl
  | cons x xs ih =>
    simp only [List.mem_cons, not_or] at h
    simp [splitFirst, Ne.symm h.1, ih h.2]

theorem sizeOf_lt_of_mem_pyList {v : PyValue} {xs : List PyValue} (h : v ∈ xs) :
    sizeOf v < sizeOf xs := by
  induction xs with
  | nil => cases h
  | cons a l ih =>
    rcases List.mem_cons.mp h with h1 | h2
    · subst h1
      simp
      omega
    · have := ih h2
      simp
      omega

theorem sizeOf_lt_of_mem_pyPairs {p : PyValue × PyValue} {kvs : List (PyValue × PyValue)}
    (h : p ∈ kvs) : sizeOf p.1 < sizeOf kvs ∧ sizeOf p.2 < sizeOf kvs := by
  induction kvs with
  | nil => cases h
  | cons a l ih =>
    rcases List.mem_cons.mp h with h1 | h2
    · subst h1
      cases p
      simp
      omega
    · have := ih h2
      simp
      omega

theorem sizeOf_lt_of_mem_pyFields {p : String × PyValue} {fs : List (String × PyValue)}
    (h : p ∈ fs) : sizeOf p.2 < sizeOf fs := by
  induction fs with
  | nil => cases h
  | cons a l ih =>
    rcases List.mem_cons.mp h with h1 | h2
    · subst h1
      cases p
      simp
      omega
    · have := ih h2
      simp
      omega

theorem inGrammarList_mem {env : PyEnv} {M : String} {xs : List PyValue} {v : PyValue}
    (h : inGrammarList env M xs = true) (hv : v ∈ xs) : inGrammar env M v = true := by
  induction xs with
  | nil => cases hv
  | cons a l ih =>
    simp only [inGrammarList, Bool.and_eq_true] at h
    rcases List.mem_cons.mp hv with h1 | h2
    · subst h1
      exact h.1
    · exact ih h.2 h2

theorem inGrammarPairs_mem {env : PyEnv} {M : String} {kvs : List (PyValue × PyValue)}
    {p : PyValue × PyValue} (h : inGrammarPairs env M kvs = true) (hp : p ∈ kvs) :
    inGrammar env M p.1 = true ∧ inGrammar env M p.2 = true := by
  induction kvs with
  | nil => cases hp
  | cons a l ih =>
    obtain ⟨k, v⟩ := a
    simp only [inGrammarPairs, Bool.and_eq_true] at h
    rcases List.mem_cons.mp hp with h1 | h2
    · subst h1
      exact ⟨h.1.1, h.1.2⟩
    · exact ih h.2 h2

theorem inGrammarFields_mem {env : PyEnv} {M : String} {fs : List (String × PyValue)}
    {p : String × PyValue} (h : inGrammarFields env M fs = true) (hp : p ∈ fs) :
    inGrammar env M p.2 = true := by
  induction fs with
  | nil => cases hp
  | cons a l ih =>
    obtain ⟨k, v⟩ := a
    simp only [inGrammarFields, Bool.and_eq_true] at h
    rcases List.mem_cons.mp hp with h1 | h2
    · subst h1
      exact h.1
    · exact ih h.2 h2

theorem literalEvalList_astOfValueList (xs : List PyValue)
    (h : ∀ v ∈ xs, literalEval (astOfValue v) = some v ∨ literalEval (astOfValue v) = none) :
    literalEvalList (astOfValueList xs) = some xs ∨
      literalEvalList (astOfValueList xs) = none := by
  induction xs with
  | nil => left; rfl
  | cons v vs ih =>
    rcases h v (by simp) with hv | hv
    · rcases ih (fun w hw => h w (by simp [hw])) with ht | ht
      · left
        simp [astOfValueList, literalEvalList, hv, ht]
      · right
        simp [astOfValueList, literalEvalList, hv, ht]
    · right
      simp [astOfValueList, literalEvalList, hv]

theorem literalEvalPairs_astOfValuePairs (kvs : List (PyValue × PyValue))
    (h : ∀ p ∈ kvs, (literalEval (astOfValue p.1) = some p.1 ∨
        literalEval (astOfValue p.1) = none) ∧
      (literalEval (astOfValue p.2) = some p.2 ∨ literalEval (astOfValue p.2) = none)) :
    literalEvalPairs (astOfValuePairs kvs) = some kvs ∨
      literalEvalPairs (astOfValuePairs kvs) = none := by
  induction kvs with
  | nil => left; rfl
  | cons p ps ih =>
    obtain ⟨k, v⟩ := p
    obtain ⟨hk, hv⟩ := h (k, v) (by simp)
    rcases hk with hk | hk
    · rcases hv with hv | hv
      · rcases ih (fun q hq => h q (by simp [hq])) with ht | ht
        · left
          simp [astOfValuePairs, literalEvalPairs, hk, hv, ht]
        · right
          simp [astOfValuePairs, literalEvalPairs, hk, hv, ht]
      · right
        simp [astOfValuePairs, literalEvalPairs, hk, hv]
    · right
      simp [astOfValuePairs, literalEvalPairs, hk]

theorem evalArgList_astOfValueList (env : PyEnv) (M : String) (xs : List PyValue)
    (h : ∀ v ∈ xs, evalArg env M (astOfValue v) = .ok v) :
    evalArgList env M (astOfValueList xs) = .ok xs := by
  induction xs with
  | nil => rfl
  | cons v vs ih =>
    have hv := h v (by simp)
    have ht := ih (fun w hw => h w (by simp [hw]))
    simp [astOfValueList, evalArgList, hv, ht]

theorem evalArgPairs_astOfValuePairs (env : PyEnv) (M : String)
    (kvs : List (PyValue × PyValue))
    (h : ∀ p ∈ kvs, evalArg env M (astOfValue p.1) = .ok p.1 ∧
      evalArg env M (astOfValue p.2) = .ok p.2) :
    evalArgPairs env M (astOfValuePairs kvs) = .ok kvs := by
  induction kvs with
  | nil => rfl
  | cons p ps ih =>
    obtain ⟨k, v⟩ := p
    obtain ⟨hk, hv⟩ := h (k, v) (by simp)
    have ht := ih (fun q hq => h q (by simp [hq]))
    simp [astOfValuePairs, evalArgPairs, hk, hv, ht]

theorem evalKwList_astOfValueFields (env : PyEnv) (M : String)
    (fs : List (String × PyValue))
    (h : ∀ p ∈ fs, evalArg env M (astOfValue p.2) = .ok p.2) :
    evalKwList env M (astOfValueFields fs) = .ok fs := by
  induction fs with
  | nil => rfl
  | cons p ps ih =>
    obtain ⟨k, v⟩ := p
    have hv := h (k, v) (by simp)
    have ht := ih (fun q hq => h q (by simp [hq]))
    simp [astOfValueFields, evalKwList, hv, ht]

/-- Strong-induction core of the round trip: on every value of the decode
grammar, `ast.literal_eval` either reproduces the value or fails (never
produces a different one), and `_eval_arg` reproduces it exactly. -/
theorem evalArg_astOfValue_aux (env : PyEnv) (M : String) :
    ∀ (n : Nat) (v : PyValue), sizeOf v ≤ n → inGrammar env M v = true →
      (literalEval (astOfValue v) = some v ∨ literalEval (astOfValue v) = none) ∧
        evalArg env M (astOfValue v) = .ok v := by
  intro n
  induction n with
  | zero =>
    intro v hv hg
    exfalso
    cases v <;> simp at hv
  | succ n ih =>
    intro v hv hg
    cases v with
    | vNone => exact ⟨Or.inl rfl, rfl⟩
    | vBool b => exact ⟨Or.inl rfl, rfl⟩
    | vInt k => exact ⟨Or.inl rfl, rfl⟩
    | vStr s => exact ⟨Or.inl rfl, rfl⟩
    | vList xs =>
      have hsz : sizeOf xs < sizeOf (PyValue.vList xs) := by simp
      have hpt : ∀ w ∈ xs,
          (literalEval (astOfValue w) = some w ∨ literalEval (astOfValue w) = none) ∧
            evalArg env M (astOfValue w) = .ok w := by
        intro w hw
        have h1 := sizeOf_lt_of_mem_pyList hw
        exact ih w (by omega) (inGrammarList_mem (by simpa [inGrammar] using hg) hw)
      have hlit := literalEvalList_astOfValueList xs (fun w hw => (hpt w hw).1)
      have heval := evalArgList_astOfValueList env M xs (fun w hw => (hpt w hw).2)
      constructor
      · rcases hlit with h | h
        · left
          simp [astOfValue, literalEval, h]
        · right
          simp [astOfValue, literalEval, h]
      · rcases hlit with h | h
        · simp [astOfValue, evalArg, literalEval, h]
        · simp [astOfValue, evalArg, literalEval, h, heval]
    | vDict kvs =>
      have hsz : sizeOf kvs < sizeOf (PyValue.vDict kvs) := by simp
      have hpt : ∀ p ∈ kvs,
          ((literalEval (astOfValue p.1) = some p.1 ∨ literalEval (astOfValue p.1) = none) ∧
            evalArg env M (astOfValue p.1) = .ok p.1) ∧
          ((literalEval (astOfValue p.2) = some p.2 ∨ literalEval (astOfValue p.2) = none) ∧
            evalArg env M (astOfValue p.2) = .ok p.2) := by
        intro p hp
        have h1 := sizeOf_lt_of_mem_pyPairs hp
        have h2 := inGrammarPairs_mem (by simpa [inGrammar] using hg) hp
        exact ⟨ih p.1 (by omega) h2.1, ih p.2 (by omega) h2.2⟩
      have hlit := literalEvalPairs_astOfValuePairs kvs
        (fun p hp => ⟨((hpt p hp).1).1, ((hpt p hp).2).1⟩)
      have heval := evalArgPairs_astOfValuePairs env M kvs
        (fun p hp => ⟨((hpt p hp).1).2, ((hpt p hp).2).2⟩)
      constructor
      · rcases hlit with h | h
        · left
          simp [astOfValue, literalEval, h]
        · right
          simp [astOfValue, literalEval, h]
      · rcases hlit with h | h
        · simp [astOfValue, evalArg, literalEval, h]
        · simp [astOfValue, evalArg, literalEval, h, heval]
    | vObj cls fields =>
      obtain ⟨clsMod, clsName⟩ := cls
      simp only [inGrammar, Bool.and_eq_true, decide_eq_true_eq] at hg
      obtain ⟨⟨⟨⟨hM, hdot⟩, hnotmod⟩, hinCls⟩, hfg⟩ := hg
      have hpt : ∀ p ∈ fields, evalArg env M (astOfValue p.2) = .ok p.2 := by
        intro p hp
        have h1 := sizeOf_lt_of_mem_pyFields hp
        have hsz : sizeOf fields < sizeOf (PyValue.vObj (clsMod, clsName) fields) := by
          simp
        exact (ih p.2 (by omega) (inGrammarFields_mem hfg hp)).2
      have hkw := evalKwList_astOfValueFields env M fields hpt
      have hres : resolveCallClass env M clsName = .ok (clsMod, clsName) := by
        have hnone : splitFirst '.' clsName.data = none :=
          splitFirst_of_not_mem '.' clsName.data hdot
        subst hM
        simp [resolveCallClass, hnone, hnotmod, hinCls]
      refine ⟨Or.inr rfl, ?_⟩
      simp [astOfValue, evalArg, hres, evalArgList, hkw]

/-- On grammar values, `_eval_arg` inverts the repr rendering. -/
theorem evalArg_astOfValue (env : PyEnv) (M : String) (v : PyValue)
    (h : inGrammar env M v = true) : evalArg env M (astOfValue v) = .ok v :=
  (evalArg_astOfValue_aux env M (sizeOf v) v le_rfl h).2

/-- The decode pipeline after component splitting reproduces the encoded
message: with the message's module importable, its class resolvable there,
and every field value in the decode grammar, `initialize` reconstructs the
object with exactly the original fields. -/
theorem initializeRepr_roundtrip (env : PyEnv) (m : ReprMessage)
    (hmod : m.module ∈ env.modules) (hcls : (m.module, m.cls) ∈ env.classes)
    (hg : inGrammarFields env m.module m.fields = true) :
    initializeRepr env m.module m.cls (parseRenderedArgs m.fields) = .ok m.toValue := by
  have hkw : evalKwList env m.module (astOfValueFields m.fields) = .ok m.fields := by
    apply evalKwList_astOfValueFields
    intro p hp
    exact evalArg_astOfValue env m.module p.2 (inGrammarFields_mem hg hp)
  simp [initializeRepr, parseRenderedArgs, hmod, hcls, evalArgList, hkw,
    ReprMessage.toValue]

/- ## Registry lemmas -/

theorem deregister_go_of_not_mem (entry : RegEntry) (l : List RegEntry)
    (h : entry ∉ l) : deregister.go entry l = l := by
  induction l with
  | nil => rfl
  | cons e es ih =>
    simp only [List.mem_cons, not_or] at h
    simp [deregister.go, Ne.symm h.1, ih h.2]

theorem register_nodup (s : List RegEntry) (mc hc : String) (hs : s.Nodup) :
    (register s mc hc).Nodup := by
  simp only [register]
  split
  · exact hs
  · next h => simpa [List.nodup_append, hs] using h

theorem register_count (s : List RegEntry) (mc hc : String) (hs : s.Nodup) :
    (register s mc hc).count ⟨mc, hc⟩ = 1 := by
  simp only [register]
  split
  · next h => exact List.count_eq_one_of_mem hs h
  · next h =>
    rw [List.count_append]
    simp [List.count_eq_zero_of_not_mem h]

/- ## Claims -/

/-- C1: for a decoded message whose type matches handlers H1 then H2 (in
registration order), `dispatch` invokes H1 then H2 sequentially, and when
the message carries a (truthy) correlation id and a response store is
configured, exactly the last non-`None` handler result is stored under that
id (H2's result when non-`None`, else H1's); nothing is stored when both
return `None`. Sequential awaiting is inherent in the embedding: the second
handler's invocation appears after the first in the trace and sees the
updated `last_result`. -/
theorem claim1_dispatch_fanout_order (cfg : BusConfig) (raw : String) (ev : Event)
    (e1 e2 : RegEntry) (r1 r2 : Option PyValue) (c : String)
    (hp : cfg.parse raw = .ok ev)
    (hh : get_handlers_for_message cfg.registry ev.qualName = [e1, e2])
    (h1 : cfg.handlerRun e1.handler_class ev = .ok r1)
    (h2 : cfg.handlerRun e2.handler_class ev = .ok r2)
    (hc : ev.correlationId = some c) (hc2 : c ≠ "")
    (hs : cfg.hasResponseStore = true) :
    dispatch cfg raw =
      ⟨[e1.handler_class, e2.handler_class],
        match r2 with
        | some v => [(c, v, cfg.responseTtl)]
        | none =>
          match r1 with
          | some v => [(c, v, cfg.responseTtl)]
          | none => [],
        .ok ()⟩ := by
  have hcid : (match ev.correlationId with
      | some c => c != ""
      | none => false) = true := by
    simp [hc, hc2]
  cases r2 with
  | some v2 =>
    cases r1 <;>
      simp [dispatch, hp, hh, runHandlers, h1, h2, hcid, hs, hc, hc2]
  | none =>
    cases r1 with
    | some v1 => simp [dispatch, hp, hh, runHandlers, h1, h2, hcid, hs, hc, hc2]
    | none => simp [dispatch, hp, hh, runHandlers, h1, h2, hs]

/-- C1 witness: a concrete two-handler fan-out where H1 returns a value and
H2 returns `None`: both handlers run in order and H1's result is stored. -/
theorem claim1_witness :
    dispatch
      ⟨[⟨"pkg.mod.Order", "pkg.mod.H1"⟩, ⟨"pkg.mod.Order", "pkg.mod.H2"⟩], true, 60,
        fun _ => .ok ⟨"pkg.mod.Order", some "cid-1"⟩,
        fun h _ => if h = "pkg.mod.H1" then .ok (some (.vInt 7)) else .ok none⟩
      "raw" =
      ⟨["pkg.mod.H1", "pkg.mod.H2"], [("cid-1", .vInt 7, 60)], .ok ()⟩ := by
  have := claim1_dispatch_fanout_order
    ⟨[⟨"pkg.mod.Order", "pkg.mod.H1"⟩, ⟨"pkg.mod.Order", "pkg.mod.H2"⟩], true, 60,
      fun _ => .ok ⟨"pkg.mod.Order", some "cid-1"⟩,
      fun h _ => if h = "pkg.mod.H1" then .ok (some (.vInt 7)) else .ok none⟩
    "raw" ⟨"pkg.mod.Order", some "cid-1"⟩
    ⟨"pkg.mod.Order", "pkg.mod.H1"⟩ ⟨"pkg.mod.Order", "pkg.mod.H2"⟩
    (some (.vInt 7)) none "cid-1" rfl (by decide) rfl rfl rfl (by decide) rfl
  simpa using this

/-- C2: the tagged-literal round trip. Encoding is `__str__` (module path +
pydantic repr); decoding is `get_message_components` followed by argument
evaluation and class construction, with the standard-library `ast.parse`
stage modelled by `parseRenderedArgs`. For every message whose module and
class name are paren-free, whose class name is dot-free, whose module is
importable with the class defined in it, and whose field values lie in the
decode grammar, the components of `encode m` are recovered exactly and
`initialize` rebuilds an object equal to `m` (same class, same fields). -/
theorem claim2_repr_roundtrip (env : PyEnv) (m : ReprMessage)
    (hpm : '(' ∉ m.module.data) (hpc : '(' ∉ m.cls.data) (hdc : '.' ∉ m.cls.data)
    (hmod : m.module ∈ env.modules) (hcls : (m.module, m.cls) ∈ env.classes)
    (hg : inGrammarFields env m.module m.fields = true) :
    get_message_components (encode m) =
      some (m.module, m.cls, renderValueFields m.fields) ∧
    initializeRepr env m.module m.cls (parseRenderedArgs m.fields) = .ok m.toValue :=
  ⟨get_message_components_correct m.module m.cls (renderValueFields m.fields) hpm hpc hdc,
    initializeRepr_roundtrip env m hmod hcls hg⟩

/-- C2 witness: a concrete message exercising every grammar form — string,
int, bool, `None`, list, dict, and a nested constructor call — round-trips
through the codec. -/
theorem claim2_witness :
    get_message_components
      (encode ⟨"pkg.mod", "Order",
        [("correlation_id", .vNone), ("id", .vStr "x"), ("qty", .vInt 3),
         ("tags", .vList [.vStr "a", .vStr "b"]),
         ("meta", .vDict [(.vStr "k", .vInt 1)]),
         ("inner", .vObj ("pkg.mod", "Inner") [("flag", .vBool true)])]⟩) =
      some ("pkg.mod", "Order",
        "correlation_id=None, id='x', qty=3, tags=['a', 'b'], meta=\x7b'k': 1\x7d, inner=Inner(flag=True)") ∧
    initializeRepr ⟨["pkg.mod"], [("pkg.mod", "Order"), ("pkg.mod", "Inner")], [("pkg.mod", "Order")]⟩
      "pkg.mod" "Order"
      (parseRenderedArgs
        [("correlation_id", .vNone), ("id", .vStr "x"), ("qty", .vInt 3),
         ("tags", .vList [.vStr "a", .vStr "b"]),
         ("meta", .vDict [(.vStr "k", .vInt 1)]),
         ("inner", .vObj ("pkg.mod", "Inner") [("flag", .vBool true)])]) =
      .ok (ReprMessage.toValue ⟨"pkg.mod", "Order",
        [("correlation_id", .vNone), ("id", .vStr "x"), ("qty", .vInt 3),
         ("tags", .vList [.vStr "a", .vStr "b"]),
         ("meta", .vDict [(.vStr "k", .vInt 1)]),
         ("inner", .vObj ("pkg.mod", "Inner") [("flag", .vBool true)])]⟩) := by
  have := claim2_repr_roundtrip
    ⟨["pkg.mod"], [("pkg.mod", "Order"), ("pkg.mod", "Inner")], [("pkg.mod", "Order")]⟩
    ⟨"pkg.mod", "Order",
      [("correlation_id", .vNone), ("id", .vStr "x"), ("qty", .vInt 3),
       ("tags", .vList [.vStr "a", .vStr "b"]),
       ("meta", .vDict [(.vStr "k", .vInt 1)]),
       ("inner", .vObj ("pkg.mod", "Inner") [("flag", .vBool true)])]⟩
    (by decide) (by decide) (by decide) (by decide) (by decide) (by decide)
  exact ⟨by rw [this.1]; rfl, this.2⟩

/-- C3 counterexample: in the batch ["bad", "good"], dispatch of "bad"
raises, and although "good" would dispatch fine on its own, `work` neither
dispatches nor acknowledges it — the failure aborts the rest of the batch,
contrary to the claim that every other message is still dispatched and
acknowledged independently. -/
theorem claim3_counterexample :
    work cfgBatch ["bad", "good"] =
      ⟨["bad"], [], some (.parseError "malformed literal")⟩ ∧
    (dispatch cfgBatch "good").result = .ok () ∧
    "good" ∉ (work cfgBatch ["bad", "good"]).dispatched ∧
    "good" ∉ (work cfgBatch ["bad", "good"]).acked := by
  refine ⟨rfl, rfl, ?_, ?_⟩ <;> decide

/-- C3 (amended): `work` has no exception handling, so when dispatch of one
message raises, that message's acknowledgement is skipped and the exception
propagates out of `work`: messages before it were dispatched and
acknowledged, the failing message was dispatched but not acknowledged, and
the messages after it are neither dispatched nor acknowledged (they remain
with the transport for redelivery). -/
theorem claim3_amended_work_aborts_batch (cfg : BusConfig) (pre : List String)
    (bad : String) (post : List String) (e : BusErr)
    (hpre : ∀ m ∈ pre, (dispatch cfg m).result = .ok ())
    (hbad : (dispatch cfg bad).result = .error e) :
    work cfg (pre ++ bad :: post) = ⟨pre ++ [bad], pre, some e⟩ := by
  induction pre with
  | nil => simp [work, hbad]
  | cons m ms ih =>
    have hm := hpre m (by simp)
    have iht := ih (fun x hx => hpre x (by simp [hx]))
    simp [work, hm, iht]

/-- C3 witness: a three-message batch with the failure in the middle: the
first message is dispatched and acked, the failing one is dispatched but
not acked, the last is untouched. -/
theorem claim3_witness :
    work cfgBatch ["fine", "bad", "tail"] =
      ⟨["fine", "bad"], ["fine"], some (.parseError "malformed literal")⟩ := by
  have := claim3_amended_work_aborts_batch cfgBatch ["fine"] "bad" ["tail"]
    (.parseError "malformed literal")
    (by intro m hm; simp at hm; subst hm; rfl) rfl
  simpa using this

/-- C4 counterexample: with zero registered handlers, `execute(wait=True)`
on a bus without a response store raises the configuration error, not the
routing ("no handler") error — the response-store check runs before the
no-handler guard — so the claim's "always a routing error on both paths"
fails (nothing is enqueued either way). -/
theorem claim4_counterexample :
    execute cfgNoStoreNoHandlers ⟨"pkg.mod.Order", none⟩ none (some true) 30 "uuid-1"
        (fun _ => 0) (fun _ => none) 5 =
      some ⟨[], 0, .error .waitRequiresStore⟩ ∧
    BusErr.waitRequiresStore ≠ BusErr.noHandler "pkg.mod.Order" := by
  exact ⟨rfl, by decide⟩

/-- C4 (amended): for a message type with zero registered handlers,
`execute` never invokes the transport's enqueue; it raises the routing
("no handler") error, except that an explicit `wait=True` on a bus with no
response store raises the configuration error first (still without
enqueuing anything). -/
theorem claim4_amended_no_handler_guard (cfg : BusConfig) (ev : Event)
    (delaySeconds : Option Int) (wait : Option Bool) (timeoutSeconds : ℚ)
    (uuidStr : String) (clock : Nat → ℚ) (storeSeq : Nat → Option PyValue) (fuel : Nat)
    (hh : get_handlers_for_message cfg.registry ev.qualName = []) :
    execute cfg ev delaySeconds wait timeoutSeconds uuidStr clock storeSeq fuel =
        some ⟨[], 0, .error (.noHandler ev.qualName)⟩ ∨
      (wait = some true ∧ cfg.hasResponseStore = false ∧
        execute cfg ev delaySeconds wait timeoutSeconds uuidStr clock storeSeq fuel =
          some ⟨[], 0, .error .waitRequiresStore⟩) := by
  by_cases hw : resolveWait wait cfg.hasResponseStore = true
  · cases hstore : cfg.hasResponseStore with
    | true =>
      left
      simp [execute, hw, hstore, hh]
    | false =>
      right
      have hwait : wait = some true := by
        cases wait with
        | none => simp [resolveWait, hstore] at hw
        | some b =>
          cases b with
          | true => rfl
          | false => simp [resolveWait] at hw
      refine ⟨hwait, rfl, ?_⟩
      subst hwait
      simp [execute, resolveWait, hstore]
  · left
    simp only [Bool.not_eq_true] at hw
    simp [execute, hw, hh]

/-- C4 witness: the default-`wait` path on the same handlerless bus raises
the routing error with nothing enqueued. -/
theorem claim4_witness :
    execute cfgNoStoreNoHandlers ⟨"pkg.mod.Order", none⟩ none none 30 "uuid-1"
        (fun _ => 0) (fun _ => none) 5 =
        some ⟨[], 0, .error (.noHandler "pkg.mod.Order")⟩ ∨
      ((none : Option Bool) = some true ∧ cfgNoStoreNoHandlers.hasResponseStore = false ∧
        execute cfgNoStoreNoHandlers ⟨"pkg.mod.Order", none⟩ none none 30 "uuid-1"
          (fun _ => 0) (fun _ => none) 5 =
          some ⟨[], 0, .error .waitRequiresStore⟩) :=
  claim4_amended_no_handler_guard cfgNoStoreNoHandlers ⟨"pkg.mod.Order", none⟩ none none
    30 "uuid-1" (fun _ => 0) (fun _ => none) 5 rfl

/-- C6: an unspecified `wait` resolves to true exactly when a response
store is configured; and an explicit `wait=True` on a bus without a
response store fails with the configuration error before anything is
enqueued (the enqueue log of the outcome is empty). -/
theorem claim6_wait_default_and_config_error (cfg : BusConfig) (ev : Event)
    (delaySeconds : Option Int) (timeoutSeconds : ℚ) (uuidStr : String)
    (clock : Nat → ℚ) (storeSeq : Nat → Option PyValue) (fuel : Nat) :
    (resolveWait none cfg.hasResponseStore = true ↔ cfg.hasResponseStore = true) ∧
    (cfg.hasResponseStore = false →
      execute cfg ev delaySeconds (some true) timeoutSeconds uuidStr clock storeSeq fuel =
        some ⟨[], 0, .error .waitRequiresStore⟩) := by
  constructor
  · simp [resolveWait]
  · intro h
    simp [execute, resolveWait, h]

/-- C6 witness: on a concrete store-less bus, the default `wait` resolves
to false and an explicit `wait=True` yields the configuration error with an
empty enqueue log. -/
theorem claim6_witness :
    (resolveWait none cfgNoStoreOneHandler.hasResponseStore = true ↔
      cfgNoStoreOneHandler.hasResponseStore = true) ∧
    execute cfgNoStoreOneHandler ⟨"pkg.mod.Order", none⟩ none (some true) 30 "uuid-2"
        (fun _ => 0) (fun _ => none) 5 =
      some ⟨[], 0, .error .waitRequiresStore⟩ :=
  ⟨(claim6_wait_default_and_config_error cfgNoStoreOneHandler ⟨"pkg.mod.Order", none⟩ none
      30 "uuid-2" (fun _ => 0) (fun _ => none) 5).1,
    (claim6_wait_default_and_config_error cfgNoStoreOneHandler ⟨"pkg.mod.Order", none⟩ none
      30 "uuid-2" (fun _ => 0) (fun _ => none) 5).2 rfl⟩

/-- C5: on any registry state satisfying the registry's stated invariant
(no two structurally identical entries — which holds for the default empty
registry and is preserved by `register`/`deregister`), registering the same
(message class, handler class) pair twice leaves exactly one
structurally-equal entry and the same state as registering once; and
deregistering a pair with no structurally-equal entry returns the state
unchanged (`deregister` is a total function — nothing raises). -/
theorem claim5_registry_idempotent_deregister_noop (s : List RegEntry)
    (mc hc mc2 hc2 : String) (hs : s.Nodup) :
    register (register s mc hc) mc hc = register s mc hc ∧
    (register (register s mc hc) mc hc).count ⟨mc, hc⟩ = 1 ∧
    (register s mc hc).Nodup ∧
    ((⟨mc2, hc2⟩ : RegEntry) ∉ s → deregister s mc2 hc2 = s) := by
  have hmem : (⟨mc, hc⟩ : RegEntry) ∈ register s mc hc := by
    simp only [register]
    split
    · assumption
    · simp
  have hreg_of_mem : ∀ t : List RegEntry, (⟨mc, hc⟩ : RegEntry) ∈ t →
      register t mc hc = t := by
    intro t htm
    simp [register, htm]
  have hidem : register (register s mc hc) mc hc = register s mc hc :=
    hreg_of_mem _ hmem
  refine ⟨hidem, ?_, register_nodup s mc hc hs, ?_⟩
  · rw [hidem]
    exact register_count s mc hc hs
  · intro habs
    simp only [deregister]
    exact deregister_go_of_not_mem _ s habs

/-- C5 witness: starting from a one-entry registry, double registration of
a second pair yields exactly one copy of it, and deregistering an absent
pair is the identity. -/
theorem claim5_witness :
    (register (register [⟨"pkg.mod.Order", "pkg.mod.H1"⟩] "pkg.mod.Order" "pkg.mod.H2")
        "pkg.mod.Order" "pkg.mod.H2" =
      register [⟨"pkg.mod.Order", "pkg.mod.H1"⟩] "pkg.mod.Order" "pkg.mod.H2") ∧
    (register (register [⟨"pkg.mod.Order", "pkg.mod.H1"⟩] "pkg.mod.Order" "pkg.mod.H2")
        "pkg.mod.Order" "pkg.mod.H2").count ⟨"pkg.mod.Order", "pkg.mod.H2"⟩ = 1 ∧
    (register [⟨"pkg.mod.Order", "pkg.mod.H1"⟩] "pkg.mod.Order" "pkg.mod.H2").Nodup ∧
    ((⟨"pkg.mod.Absent", "pkg.mod.HX"⟩ : RegEntry) ∉
        [(⟨"pkg.mod.Order", "pkg.mod.H1"⟩ : RegEntry)] →
      deregister [⟨"pkg.mod.Order", "pkg.mod.H1"⟩] "pkg.mod.Absent" "pkg.mod.HX" =
        [⟨"pkg.mod.Order", "pkg.mod.H1"⟩]) :=
  claim5_registry_idempotent_deregister_noop [⟨"pkg.mod.Order", "pkg.mod.H1"⟩]
    "pkg.mod.Order" "pkg.mod.H2" "pkg.mod.Absent" "pkg.mod.HX" (by decide)

/-- C7: the JSON codec's decode-error taxonomy. With any payload of unique
keys and any type key: a missing type key, a non-string (non-null) type
value, a type value whose `rpartition(".")` leaves the module-path or name
part empty, and a resolved class that is not an `EventMessage` subclass
each produce their own error, and the four errors are pairwise distinct;
in the remaining well-formed case (key present, string, qualified,
module importable, class defined and an `EventMessage` subclass) the
remaining keys become the keyword field values of the resolved class. -/
theorem claim7_json_error_taxonomy (env : PyEnv) (typeKey : String)
    (payload : List (String × Json)) :
    (lookupKey payload typeKey = none →
      initializeJson env typeKey payload = .error .missingType) ∧
    (∀ j, lookupKey payload typeKey = some j → j ≠ Json.null →
      (∀ s, j ≠ Json.str s) →
      initializeJson env typeKey payload = .error .typeNotString) ∧
    (∀ s, lookupKey payload typeKey = some (Json.str s) →
      ((rpartitionDot s).1 = "" ∨ (rpartitionDot s).2 = "") →
      initializeJson env typeKey payload = .error .notQualified) ∧
    (∀ s, lookupKey payload typeKey = some (Json.str s) →
      (rpartitionDot s).1 ≠ "" → (rpartitionDot s).2 ≠ "" →
      (rpartitionDot s).1 ∈ env.modules →
      ((rpartitionDot s).1, (rpartitionDot s).2) ∈ env.classes →
      ((rpartitionDot s).1, (rpartitionDot s).2) ∉ env.eventClasses →
      initializeJson env typeKey payload = .error .notEventMessage) ∧
    (∀ s, lookupKey payload typeKey = some (Json.str s) →
      (rpartitionDot s).1 ≠ "" → (rpartitionDot s).2 ≠ "" →
      (rpartitionDot s).1 ∈ env.modules →
      ((rpartitionDot s).1, (rpartitionDot s).2) ∈ env.classes →
      ((rpartitionDot s).1, (rpartitionDot s).2) ∈ env.eventClasses →
      initializeJson env typeKey payload =
        .ok ⟨((rpartitionDot s).1, (rpartitionDot s).2), removeKey payload typeKey⟩) ∧
    ([JsonErr.missingType, JsonErr.typeNotString, JsonErr.notQualified,
        JsonErr.notEventMessage].Nodup) := by
  refine ⟨?_, ?_, ?_, ?_, ?_, by decide⟩
  · intro h
    simp [initializeJson, h]
  · intro j hj hnull hnstr
    cases j with
    | null => exact absurd rfl hnull
    | str s => exact absurd rfl (hnstr s)
    | bool b => simp [initializeJson, hj]
    | num n => simp [initializeJson, hj]
    | arr xs => simp [initializeJson, hj]
    | obj kvs => simp [initializeJson, hj]
  · intro s hs hempty
    rcases hempty with h1 | h1 <;> simp [initializeJson, hs, h1]
  · intro s hs h1 h2 hmod hcls hnev
    simp [initializeJson, hs, h1, h2, hmod, hcls, hnev]
  · intro s hs h1 h2 hmod hcls hev
    simp [initializeJson, hs, h1, h2, hmod, hcls, hev]

/-- C7 witness: a concrete environment and payloads hitting all five cases
of the taxonomy. -/
theorem claim7_witness :
    initializeJson ⟨["pkg.mod"], [("pkg.mod", "Order"), ("pkg.mod", "Plain")],
        [("pkg.mod", "Order")]⟩ "__type__" [("id", .str "x")] =
      .error .missingType ∧
    initializeJson ⟨["pkg.mod"], [("pkg.mod", "Order"), ("pkg.mod", "Plain")],
        [("pkg.mod", "Order")]⟩ "__type__" [("__type__", .num 3)] =
      .error .typeNotString ∧
    initializeJson ⟨["pkg.mod"], [("pkg.mod", "Order"), ("pkg.mod", "Plain")],
        [("pkg.mod", "Order")]⟩ "__type__" [("__type__", .str "Order")] =
      .error .notQualified ∧
    initializeJson ⟨["pkg.mod"], [("pkg.mod", "Order"), ("pkg.mod", "Plain")],
        [("pkg.mod", "Order")]⟩ "__type__" [("__type__", .str "pkg.mod.Plain")] =
      .error .notEventMessage ∧
    initializeJson ⟨["pkg.mod"], [("pkg.mod", "Order"), ("pkg.mod", "Plain")],
        [("pkg.mod", "Order")]⟩ "__type__"
        [("__type__", .str "pkg.mod.Order"), ("id", .str "x"), ("qty", .num 3)] =
      .ok ⟨("pkg.mod", "Order"), [("id", .str "x"), ("qty", .num 3)]⟩ := by
  refine ⟨?_, ?_, ?_, ?_, ?_⟩
  · exact (claim7_json_error_taxonomy _ "__type__" _).1 rfl
  · exact (claim7_json_error_taxonomy _ "__type__" _).2.1 (.num 3) rfl
      (by intro h; cases h) (by intro s h; cases h)
  · exact (claim7_json_error_taxonomy _ "__type__" _).2.2.1 "Order" rfl (by left; rfl)
  · exact (claim7_json_error_taxonomy _ "__type__" _).2.2.2.1 "pkg.mod.Plain" rfl
      (by decide) (by decide) (by decide) (by decide) (by decide)
  · exact (claim7_json_error_taxonomy _ "__type__" _).2.2.2.2.1 "pkg.mod.Order" rfl
      (by decide) (by decide) (by decide) (by decide) (by decide)

/-- C8: in a tagged-literal argument list, `_eval_arg` maps the bare
identifier `nan` to Python `None` — exactly the value the bare `None`
yields, not a float NaN and not an error — just as `True` and `False` map
to their boolean values. -/
theorem claim8_nan_decodes_to_none (env : PyEnv) (outerModule : String) :
    evalArg env outerModule (.aName "nan") = .ok .vNone ∧
    evalArg env outerModule (.aName "nan") =
      evalArg env outerModule (.aName "None") ∧
    evalArg env outerModule (.aName "True") = .ok (.vBool true) ∧
    evalArg env outerModule (.aName "False") = .ok (.vBool false) :=
  ⟨rfl, rfl, rfl, rfl⟩

/-- C9: with a response store configured, a matching handler registered,
and a non-positive `timeout_seconds`, `execute(wait=True)` still enqueues
the correlation-stamped copy of the message, then raises `TimeoutError`
after zero response-store reads: the deadline check precedes the first
`get`, and any monotonic clock reading already meets the deadline. -/
theorem claim9_nonpositive_timeout_zero_polls (cfg : BusConfig) (ev : Event)
    (delaySeconds : Option Int) (timeoutSeconds : ℚ) (uuidStr : String)
    (clock : Nat → ℚ) (storeSeq : Nat → Option PyValue) (fuel : Nat)
    (hstore : cfg.hasResponseStore = true)
    (hh : get_handlers_for_message cfg.registry ev.qualName ≠ [])
    (ht : timeoutSeconds ≤ 0)
    (hclock : clock 0 ≤ clock 1)
    (hfuel : 1 ≤ fuel) :
    execute cfg ev delaySeconds (some true) timeoutSeconds uuidStr clock storeSeq fuel =
      some ⟨[({ ev with correlationId := some uuidStr }, delaySeconds.getD 0)], 0,
        .error (.timeoutErr uuidStr)⟩ := by
  obtain ⟨f, rfl⟩ : ∃ f, fuel = f + 1 := ⟨fuel - 1, by omega⟩
  have hlt : ¬ clock 1 < clock 0 + timeoutSeconds := by
    have : clock 0 + timeoutSeconds ≤ clock 1 := by linarith
    exact not_lt.mpr this
  have hpoll : pollLoop storeSeq clock (clock 0 + timeoutSeconds) uuidStr (f + 1) 1 0 =
      some (0, .error (.timeoutErr uuidStr)) := by
    simp [pollLoop, hlt]
  cases hl : get_handlers_for_message cfg.registry ev.qualName with
  | nil => exact absurd hl hh
  | cons a t =>
    simp [execute, resolveWait, hstore, hl, hpoll]

/-- C9 witness: a concrete `execute(wait=True, timeout_seconds=0)` on a
constant clock enqueues the stamped message and times out with zero store
reads. -/
theorem claim9_witness :
    execute cfgStoreOneHandler ⟨"pkg.mod.Order", none⟩ none (some true) 0 "uuid-3"
        (fun _ => 5) (fun _ => none) 4 =
      some ⟨[(⟨"pkg.mod.Order", some "uuid-3"⟩, 0)], 0, .error (.timeoutErr "uuid-3")⟩ := by
  have := claim9_nonpositive_timeout_zero_polls cfgStoreOneHandler ⟨"pkg.mod.Order", none⟩
    none 0 "uuid-3" (fun _ => 5) (fun _ => none) 4 rfl (by decide) le_rfl le_rfl
    (by omega)
  simpa using this

/-- C10: a JSON payload whose type key is bound to JSON `null` is
indistinguishable from one lacking the key: `dict.pop(key, None)` returns
Python `None` in both cases, so both raise the same missing-type-key
error. -/
theorem claim10_null_type_equals_missing (env : PyEnv) (typeKey : String)
    (rest : List (String × Json)) (habs : lookupKey rest typeKey = none) :
    initializeJson env typeKey ((typeKey, Json.null) :: rest) =
      initializeJson env typeKey rest ∧
    initializeJson env typeKey ((typeKey, Json.null) :: rest) =
      .error .missingType := by
  constructor
  · simp [initializeJson, lookupKey, habs]
  · simp [initializeJson, lookupKey]

/-- C10 witness: a concrete payload with `"__type__": null` decodes to the
same missing-type error as the payload without the key. -/
theorem claim10_witness :
    initializeJson ⟨["pkg.mod"], [("pkg.mod", "Order")], [("pkg.mod", "Order")]⟩
        "__type__" [("__type__", Json.null), ("id", .str "x")] =
      initializeJson ⟨["pkg.mod"], [("pkg.mod", "Order")], [("pkg.mod", "Order")]⟩
        "__type__" [("id", .str "x")] ∧
    initializeJson ⟨["pkg.mod"], [("pkg.mod", "Order")], [("pkg.mod", "Order")]⟩
        "__type__" [("__type__", Json.null), ("id", .str "x")] =
      .error .missingType :=
  claim10_null_type_equals_missing ⟨["pkg.mod"], [("pkg.mod", "Order")],
    [("pkg.mod", "Order")]⟩ "__type__" [("id", .str "x")] rfl

end EventBusModel
